import Mathlib

/-!
Shallow embedding of the bevy_rts_camera controller (src/controller.rs).

The three per-frame updaters (zoom, pan, rotate) act on one entity's
camera state (RtsCamera) guarded by its configuration
(RtsCameraControls).  Scalars (f32) are modelled as real numbers.
3D vectors (glam Vec3) are modelled as pure-imaginary quaternions, so
that glam's rotation of a vector by a quaternion, q * v * conj q, is
plain quaternion multiplication; Transform is a translation vector plus
a rotation quaternion.  Per-frame event streams are lists; button and
key state are boolean-valued functions; the primary-window query result
is an Option.
-/

noncomputable section

namespace Bevy

/-- Key identifiers. The controller only compares them for equality. -/
inductive KeyCode where
  | arrowUp
  | arrowDown
  | arrowLeft
  | arrowRight
  | other : Nat → KeyCode
deriving DecidableEq

/-- Mouse button identifiers. The controller only compares them for equality. -/
inductive MouseButton where
  | left
  | middle
  | right
  | other : Nat → MouseButton
deriving DecidableEq

/-- Unit tag carried by a mouse-wheel scroll event. -/
inductive MouseScrollUnit where
  | line
  | pixel
deriving DecidableEq

/-- One mouse-wheel scroll event (bevy MouseWheel); the controller reads y and unit. -/
structure MouseWheel where
  unit : MouseScrollUnit
  x : ℝ
  y : ℝ

/-- Plane vector (glam Vec2), used for cursor positions and motion deltas. -/
structure Vec2 where
  x : ℝ
  y : ℝ

/-- Componentwise addition of plane vectors (glam Vec2 addition). -/
def Vec2.add (a b : Vec2) : Vec2 :=
  ⟨a.x + b.x, a.y + b.y⟩

/-- One mouse-motion event (bevy MouseMotion), a 2D pixel delta. -/
structure MouseMotion where
  delta : Vec2

/-- Primary window data the controller reads: logical width, height, and
the cursor position, which is present only while the cursor is inside
the window area (hence coordinates within the window bounds). -/
structure Window where
  width : ℝ
  height : ℝ
  cursor_position : Option Vec2

/-- Space vector (glam Vec3), embedded as a pure-imaginary quaternion:
the Vec3 (x, y, z) is the quaternion with re = 0, imI = x, imJ = y,
imK = z. -/
abbrev Vec3 : Type := Quaternion ℝ

/-- Unit x vector, embedded as a pure quaternion. -/
def vecX : Vec3 := ⟨0, 1, 0, 0⟩

/-- Unit y vector, embedded as a pure quaternion. -/
def vecY : Vec3 := ⟨0, 0, 1, 0⟩

/-- Unit z vector, embedded as a pure quaternion. -/
def vecZ : Vec3 := ⟨0, 0, 0, 1⟩

/-- Rotation of a vector by a quaternion (glam Quat::mul_vec3 on a unit
quaternion): conjugation q * v * star q. -/
def rotateVec (q : Quaternion ℝ) (v : Vec3) : Vec3 :=
  q * v * star q

/-- Squared length of an embedded Vec3 (glam Vec3::length_squared,
x*x + y*y + z*z on the imaginary components). -/
def length_squared (v : Vec3) : ℝ :=
  v.imI * v.imI + v.imJ * v.imJ + v.imK * v.imK

open Classical in
/-- Normalization returning zero on the zero vector
(glam Vec3::normalize_or_zero). -/
def normalize_or_zero (v : Vec3) : Vec3 :=
  if v = 0 then 0 else ‖v‖⁻¹ • v

/-- Linear remap of a scalar from one range onto another
(bevy FloatExt::remap). -/
def remap (x old_min old_max new_min new_max : ℝ) : ℝ :=
  (x - old_min) / (old_max - old_min) * (new_max - new_min) + new_min

/-- Clamp of a scalar to an interval (Rust f32::clamp). -/
def clampf (x lo hi : ℝ) : ℝ :=
  if x < lo then lo else if x > hi then hi else x

/-- Rigid transform (bevy Transform restricted to what the controller
touches): translation and rotation. -/
structure Transform where
  translation : Vec3
  rotation : Quaternion ℝ

/-- Local forward direction of a transform (bevy Transform::forward,
the rotation applied to -Z). -/
def Transform.forward (t : Transform) : Vec3 :=
  rotateVec t.rotation (-vecZ)

/-- Local back direction of a transform (bevy Transform::back, the
rotation applied to Z). -/
def Transform.back (t : Transform) : Vec3 :=
  rotateVec t.rotation vecZ

/-- Local left direction of a transform (bevy Transform::left, the
rotation applied to -X). -/
def Transform.left (t : Transform) : Vec3 :=
  rotateVec t.rotation (-vecX)

/-- Local right direction of a transform (bevy Transform::right, the
rotation applied to X). -/
def Transform.right (t : Transform) : Vec3 :=
  rotateVec t.rotation vecX

/-- Quaternion for a rotation about the y axis by a given angle
(glam Quat::from_rotation_y: w = cos of half the angle, y component =
sin of half the angle). -/
def from_rotation_y (angle : ℝ) : Quaternion ℝ :=
  ⟨Real.cos (angle * 0.5), 0, Real.sin (angle * 0.5), 0⟩

/-- Local-frame rotation of a transform about its y axis
(bevy Transform::rotate_local_y: compose from_rotation_y on the right
of the current rotation). -/
def Transform.rotate_local_y (t : Transform) (angle : ℝ) : Transform :=
  { t with rotation := t.rotation * from_rotation_y angle }

/-- Modelled from the spec: the RtsCamera component is defined in the
crate root (lib.rs), which is not part of the given sources; the spec's
Camera State holds target_focus (a rigid transform) and target_zoom (a
scalar). Only these two fields are touched by the controller. -/
structure RtsCamera where
  target_focus : Transform
  target_zoom : ℝ

/-- Configuration component RtsCameraControls from src/controller.rs. -/
structure RtsCameraControls where
  key_up : KeyCode
  key_down : KeyCode
  key_left : KeyCode
  key_right : KeyCode
  button_rotate : MouseButton
  edge_pan_width : ℝ
  pan_speed : ℝ
  enabled : Bool

/-- Default configuration (impl Default for RtsCameraControls). -/
def defaultControls : RtsCameraControls :=
  ⟨.arrowUp, .arrowDown, .arrowLeft, .arrowRight, .middle, 0.05, 15.0, true⟩

/-- Per-event scroll contribution of the zoom updater: line units pass
through, pixel units are scaled by 0.001 (the match inside zoom). -/
def scrollContribution (e : MouseWheel) : ℝ :=
  match e.unit with
  | .line => e.y
  | .pixel => e.y * 0.001

/-- Accumulated scroll amount for the frame: map each event to its
contribution and fold with addition from 0 (the read/map/fold chain
inside zoom). -/
def zoomAmount (events : List MouseWheel) : ℝ :=
  (events.map scrollContribution).foldl (fun acc val => acc + val) 0

/-- Per-entity body of the zoom system: when the controls are enabled,
add the accumulated scroll amount times 0.5 to target_zoom and clamp to
the interval from 0 to 1; a disabled entity is skipped by the query
filter. -/
def zoom (events : List MouseWheel) (ctrl : RtsCameraControls)
    (cam : RtsCamera) : RtsCamera :=
  if ctrl.enabled then
    { cam with target_zoom := clampf (cam.target_zoom + zoomAmount events * 0.5) 0 1 }
  else cam

/-- Keyboard part of the pan accumulator: each held directional key adds
the corresponding local direction of target_focus (the four ifs at the
top of pan). -/
def keyDelta (keys : KeyCode → Bool) (ctrl : RtsCameraControls)
    (cam : RtsCamera) : Vec3 :=
  (if keys ctrl.key_up then cam.target_focus.forward else 0)
  + (if keys ctrl.key_down then cam.target_focus.back else 0)
  + (if keys ctrl.key_left then cam.target_focus.left else 0)
  + (if keys ctrl.key_right then cam.target_focus.right else 0)

/-- Edge-pan contribution for a window: when a cursor position is
present, each of the four strict band tests adds a local direction; the
band width is the window height times edge_pan_width (the cursor branch
inside pan). -/
def edgeDelta (win : Window) (ctrl : RtsCameraControls)
    (cam : RtsCamera) : Vec3 :=
  match win.cursor_position with
  | none => 0
  | some cursor =>
    (if cursor.x < win.height * ctrl.edge_pan_width
      then cam.target_focus.left else 0)
    + (if cursor.x > win.width - win.height * ctrl.edge_pan_width
      then cam.target_focus.right else 0)
    + (if cursor.y < win.height * ctrl.edge_pan_width
      then cam.target_focus.forward else 0)
    + (if cursor.y > win.height - win.height * ctrl.edge_pan_width
      then cam.target_focus.back else 0)

/-- Pan accumulator for the frame: the keyboard delta, plus the
edge-pan delta only when the keyboard delta has squared length zero and
the rotate button is not pressed; a missing primary window contributes
nothing (the guard at the middle of pan). -/
def panAccum (keys : KeyCode → Bool) (btns : MouseButton → Bool)
    (win : Option Window) (ctrl : RtsCameraControls)
    (cam : RtsCamera) : Vec3 :=
  let d := keyDelta keys ctrl cam
  if length_squared d = 0 ∧ btns ctrl.button_rotate = false then
    d + (match win with
      | some w => edgeDelta w ctrl cam
      | none => 0)
  else d

/-- Per-entity body of the pan system: when the controls are enabled,
translate target_focus by the normalized accumulator scaled by the
frame time, pan_speed, and the zoom remap from the interval 0 to 1 onto
the interval 1 to 0.5; a disabled entity is skipped. -/
def pan (keys : KeyCode → Bool) (btns : MouseButton → Bool)
    (win : Option Window) (dt : ℝ) (ctrl : RtsCameraControls)
    (cam : RtsCamera) : RtsCamera :=
  if ctrl.enabled then
    { cam with target_focus.translation :=
        (cam.target_focus.translation
          + (dt * ctrl.pan_speed * remap cam.target_zoom 0 1 1 0.5)
            • normalize_or_zero (panAccum keys btns win ctrl cam)) }
  else cam

/-- Accumulated mouse-motion delta for the frame: sum of per-event
deltas from zero (the read/map/sum chain inside rotate). -/
def sumMotion (events : List MouseMotion) : Vec2 :=
  (events.map MouseMotion.delta).foldl Vec2.add ⟨0, 0⟩

/-- Per-entity body of the rotate system: when the controls are enabled
and the rotate button is held and a primary window exists, rotate
target_focus locally about y by the negated horizontal motion delta
divided by the window width times pi; otherwise the state is unchanged;
a disabled entity is skipped. -/
def rotate (btns : MouseButton → Bool) (events : List MouseMotion)
    (win : Option Window) (ctrl : RtsCameraControls)
    (cam : RtsCamera) : RtsCamera :=
  if ctrl.enabled then
    if btns ctrl.button_rotate then
      match win with
      | some w =>
        { cam with target_focus :=
            (cam.target_focus.rotate_local_y
              (-((sumMotion events).x / w.width * Real.pi))) }
      | none => cam
    else cam
  else cam

/-- Sample camera state with identity focus and mid zoom, for witnesses. -/
def cam0 : RtsCamera :=
  ⟨⟨0, 1⟩, 0.5⟩

/-- Sample camera state whose target_zoom lies above the valid range. -/
def camHigh : RtsCamera :=
  ⟨⟨0, 1⟩, 2⟩

/-- Sample disabled configuration, for witnesses. -/
def controlsOff : RtsCameraControls :=
  ⟨.arrowUp, .arrowDown, .arrowLeft, .arrowRight, .middle, 0.05, 15.0, false⟩

/-- Key state with exactly one key held. -/
def pressOne (k : KeyCode) : KeyCode → Bool :=
  fun c => decide (c = k)

/-- Key state with exactly two keys held. -/
def pressTwo (k1 k2 : KeyCode) : KeyCode → Bool :=
  fun c => decide (c = k1) || decide (c = k2)

/-- Button or key state with nothing held. -/
def pressNone {α : Type} : α → Bool :=
  fun _ => false

/-- Button state with every button held. -/
def pressAll {α : Type} : α → Bool :=
  fun _ => true

/-- Sample configuration with edge panning disabled. -/
def controlsNoEdge : RtsCameraControls :=
  ⟨.arrowUp, .arrowDown, .arrowLeft, .arrowRight, .middle, 0, 15.0, true⟩

/-- Purity predicate characterising embedded Vec3 values: a quaternion
represents a space vector exactly when conjugation negates it, which
forces its real part to vanish. -/
def IsVec (v : Quaternion ℝ) : Prop :=
  star v = -v

end Bevy

namespace Bevy

/-- C1: for every controlled entity with enabled = true and every
sequence of scroll events of any magnitudes and unit modes, after the
zoom updater runs target_zoom lies within the interval from 0 to 1,
regardless of the value target_zoom held before the update. -/
theorem zoom_clamps (events : List MouseWheel) (ctrl : RtsCameraControls)
    (cam : RtsCamera) (hen : ctrl.enabled = true) :
    0 ≤ (zoom events ctrl cam).target_zoom ∧
    (zoom events ctrl cam).target_zoom ≤ 1 := by
  simp only [zoom, hen, if_true]
  unfold clampf
  split_ifs with h1 h2 <;> constructor <;> linarith

/-- Witness for C1, at a large scroll magnitude and an out-of-range
prior zoom. -/
theorem zoom_clamps_witness :
    0 ≤ (zoom [⟨.line, 0, 100⟩] defaultControls camHigh).target_zoom ∧
    (zoom [⟨.line, 0, 100⟩] defaultControls camHigh).target_zoom ≤ 1 :=
  zoom_clamps [⟨.line, 0, 100⟩] defaultControls camHigh rfl

/-- C8: a pixel scroll event of magnitude 1000 contributes exactly the
same amount as a line event of magnitude 1, and the zoom updater maps
any camera to the same state on the two event streams. -/
theorem zoom_unit_equivalence (ctrl : RtsCameraControls) (cam : RtsCamera)
    (x1 x2 : ℝ) :
    scrollContribution ⟨.pixel, x1, 1000⟩ = scrollContribution ⟨.line, x2, 1⟩ ∧
    zoom [⟨.pixel, x1, 1000⟩] ctrl cam = zoom [⟨.line, x2, 1⟩] ctrl cam := by
  constructor
  · simp [scrollContribution]
    norm_num
  · simp [zoom, zoomAmount, scrollContribution]
    norm_num

/-- Counterexample for C9 as frozen: with no scroll events the zoom
updater still clamps, so a prior out-of-range target_zoom of 2 is
changed to 1 rather than left unchanged. -/
theorem zoom_no_events_counterexample :
    (zoom [] defaultControls camHigh).target_zoom ≠ camHigh.target_zoom := by
  norm_num [zoom, zoomAmount, camHigh, defaultControls, clampf]

/-- C9 (amended): with no scroll events the accumulated zoom delta is
zero, and provided target_zoom already lies within the interval from 0
to 1 the zoom updater leaves the camera unchanged (the clamp is still
applied, so an out-of-range prior value would be clamped). -/
theorem zoom_no_events (ctrl : RtsCameraControls) (cam : RtsCamera)
    (hen : ctrl.enabled = true) (h0 : 0 ≤ cam.target_zoom)
    (h1 : cam.target_zoom ≤ 1) :
    zoomAmount [] = 0 ∧ zoom [] ctrl cam = cam := by
  have hz : cam.target_zoom + zoomAmount [] * 0.5 = cam.target_zoom := by
    simp [zoomAmount]
  have hc : clampf (cam.target_zoom + zoomAmount [] * 0.5) 0 1
      = cam.target_zoom := by
    rw [hz]
    unfold clampf
    split_ifs with a b <;> linarith
  refine ⟨rfl, ?_⟩
  simp [zoom, hen, hc]

/-- Witness for C9 (amended), at an in-range zoom of one half. -/
theorem zoom_no_events_witness :
    zoomAmount [] = 0 ∧ zoom [] defaultControls cam0 = cam0 :=
  zoom_no_events defaultControls cam0 rfl (by norm_num [cam0])
    (by norm_num [cam0])

/-- C2: with enabled = false on the configuration, none of the three
updaters changes the camera state, whatever events, key states, button
states, windows or cursor positions are present; in particular no
clamping of target_zoom happens. -/
theorem disabled_noop (wevents : List MouseWheel) (keys : KeyCode → Bool)
    (btns : MouseButton → Bool) (mevents : List MouseMotion)
    (win : Option Window) (dt : ℝ) (ctrl : RtsCameraControls)
    (cam : RtsCamera) (hdis : ctrl.enabled = false) :
    zoom wevents ctrl cam = cam ∧ pan keys btns win dt ctrl cam = cam ∧
    rotate btns mevents win ctrl cam = cam := by
  simp [zoom, pan, rotate, hdis]

/-- Witness for C2, with inputs of every kind present and a disabled
configuration carrying an out-of-range zoom. -/
theorem disabled_noop_witness :
    zoom [⟨.line, 0, 5⟩] controlsOff camHigh = camHigh ∧
    pan pressAll pressAll (some ⟨1000, 800, some ⟨1, 1⟩⟩) 0.016
      controlsOff camHigh = camHigh ∧
    rotate pressAll [⟨⟨30, 0⟩⟩] (some ⟨1000, 800, some ⟨1, 1⟩⟩)
      controlsOff camHigh = camHigh :=
  disabled_noop [⟨.line, 0, 5⟩] pressAll pressAll [⟨⟨30, 0⟩⟩]
    (some ⟨1000, 800, some ⟨1, 1⟩⟩) 0.016 controlsOff camHigh rfl

end Bevy

namespace Bevy

/-- Conjugation fixes the zero vector. -/
theorem isVec_zero : IsVec 0 := by
  simp [IsVec]

/-- Negation preserves purity. -/
theorem isVec_neg {v : Quaternion ℝ} (hv : IsVec v) : IsVec (-v) := by
  rw [IsVec, star_neg, hv]

/-- Addition preserves purity. -/
theorem isVec_add {a b : Quaternion ℝ} (ha : IsVec a) (hb : IsVec b) :
    IsVec (a + b) := by
  rw [IsVec, star_add, ha, hb, neg_add]

/-- Branching preserves purity. -/
theorem isVec_ite (c : Prop) [Decidable c] {a b : Quaternion ℝ}
    (ha : IsVec a) (hb : IsVec b) : IsVec (if c then a else b) := by
  split_ifs <;> assumption

/-- Unit x vector is pure. -/
theorem isVec_vecX : IsVec vecX := by
  simp only [IsVec, vecX]
  ext <;> simp

/-- Unit z vector is pure. -/
theorem isVec_vecZ : IsVec vecZ := by
  simp only [IsVec, vecZ]
  ext <;> simp

/-- Rotation by any quaternion preserves purity. -/
theorem isVec_rotateVec (q : Quaternion ℝ) {v : Quaternion ℝ}
    (hv : IsVec v) : IsVec (rotateVec q v) := by
  simp only [IsVec, rotateVec] at hv ⊢
  rw [star_mul, star_mul, star_star, hv]
  simp [mul_assoc]

/-- Local directions of a transform are pure. -/
theorem isVec_forward (t : Transform) : IsVec t.forward :=
  isVec_rotateVec _ (isVec_neg isVec_vecZ)

/-- Local back direction is pure. -/
theorem isVec_back (t : Transform) : IsVec t.back :=
  isVec_rotateVec _ isVec_vecZ

/-- Local left direction is pure. -/
theorem isVec_left (t : Transform) : IsVec t.left :=
  isVec_rotateVec _ (isVec_neg isVec_vecX)

/-- Local right direction is pure. -/
theorem isVec_right (t : Transform) : IsVec t.right :=
  isVec_rotateVec _ isVec_vecX

/-- Keyboard accumulators are pure. -/
theorem isVec_keyDelta (keys : KeyCode → Bool) (ctrl : RtsCameraControls)
    (cam : RtsCamera) : IsVec (keyDelta keys ctrl cam) := by
  unfold keyDelta
  exact isVec_add (isVec_add (isVec_add
    (isVec_ite _ (isVec_forward _) isVec_zero)
    (isVec_ite _ (isVec_back _) isVec_zero))
    (isVec_ite _ (isVec_left _) isVec_zero))
    (isVec_ite _ (isVec_right _) isVec_zero)

/-- Pure quaternions have vanishing real part. -/
theorem IsVec.re_eq_zero {v : Quaternion ℝ} (hv : IsVec v) : v.re = 0 := by
  have h := congrArg Quaternion.re hv
  simp at h
  linarith

/-- Squared length of a pure quaternion agrees with the quaternion
square norm. -/
theorem length_squared_eq_normSq {v : Quaternion ℝ} (hv : IsVec v) :
    length_squared v = Quaternion.normSq v := by
  rw [Quaternion.normSq_def', length_squared, hv.re_eq_zero]
  ring

/-- Squared length of a pure quaternion vanishes exactly on the zero
vector, matching the glam Vec3 this embeds. -/
theorem length_squared_eq_zero_iff {v : Quaternion ℝ} (hv : IsVec v) :
    length_squared v = 0 ↔ v = 0 := by
  rw [length_squared_eq_normSq hv, Quaternion.normSq_eq_zero]

/-- If the keyboard accumulator has nonzero squared length, the pan
accumulator is exactly the keyboard accumulator. -/
theorem panAccum_eq_keyDelta (keys : KeyCode → Bool)
    (btns : MouseButton → Bool) (win : Option Window)
    (ctrl : RtsCameraControls) (cam : RtsCamera)
    (hlen : length_squared (keyDelta keys ctrl cam) ≠ 0) :
    panAccum keys btns win ctrl cam = keyDelta keys ctrl cam := by
  simp [panAccum, hlen]

/-- Rotation by a nonzero quaternion vanishes only on the zero vector. -/
theorem rotateVec_eq_zero_iff (q v : Quaternion ℝ) (hq : q ≠ 0) :
    rotateVec q v = 0 ↔ v = 0 := by
  simp [rotateVec, mul_eq_zero, hq, star_eq_zero]

/-- Rotation distributes over vector addition. -/
theorem rotateVec_add (q a b : Quaternion ℝ) :
    rotateVec q (a + b) = rotateVec q a + rotateVec q b := by
  simp [rotateVec, mul_add, add_mul]

/-- Rotation by a unit quaternion preserves the norm. -/
theorem norm_rotateVec (q v : Quaternion ℝ) (hq : ‖q‖ = 1) :
    ‖rotateVec q v‖ = ‖v‖ := by
  simp [rotateVec, norm_mul, Quaternion.norm_star, hq]

/-- Normalizing a nonzero vector yields a unit-norm vector. -/
theorem norm_normalize_or_zero {v : Quaternion ℝ} (hv : v ≠ 0) :
    ‖normalize_or_zero v‖ = 1 := by
  rw [normalize_or_zero, if_neg hv, norm_smul, norm_inv, norm_norm]
  exact inv_mul_cancel₀ (norm_ne_zero_iff.2 hv)

/-- C3: the pan accumulator is built from exactly one source per frame:
whenever the keyboard delta is nonzero, or the rotate button is held,
the accumulator is the keyboard delta alone (the edge bands are never
consulted); only when the keyboard delta has squared length zero and
the rotate button is up is the accumulator the edge-pan delta alone. -/
theorem pan_exclusivity (keys : KeyCode → Bool) (btns : MouseButton → Bool)
    (win : Option Window) (ctrl : RtsCameraControls) (cam : RtsCamera) :
    (keyDelta keys ctrl cam ≠ 0 →
      panAccum keys btns win ctrl cam = keyDelta keys ctrl cam)
    ∧ (btns ctrl.button_rotate = true →
      panAccum keys btns win ctrl cam = keyDelta keys ctrl cam)
    ∧ (length_squared (keyDelta keys ctrl cam) = 0 →
      btns ctrl.button_rotate = false →
      panAccum keys btns win ctrl cam
        = (match win with | some w => edgeDelta w ctrl cam | none => 0)) := by
  have hvec := isVec_keyDelta keys ctrl cam
  refine ⟨?_, ?_, ?_⟩
  · intro h
    exact panAccum_eq_keyDelta keys btns win ctrl cam
      (fun h0 => h ((length_squared_eq_zero_iff hvec).1 h0))
  · intro h
    simp [panAccum, h]
  · intro h0 hbtn
    have hz : keyDelta keys ctrl cam = 0 :=
      (length_squared_eq_zero_iff hvec).1 h0
    have h00 : length_squared (0 : Quaternion ℝ) = 0 := by
      simp [length_squared]
    simp [panAccum, hz, h00, hbtn]

end Bevy

namespace Bevy

/-- Witness for C3: with only the up key held and the cursor inside the
left edge band, the accumulator is the keyboard delta alone. -/
theorem pan_exclusivity_witness :
    panAccum (pressOne .arrowUp) pressNone (some ⟨1000, 800, some ⟨1, 400⟩⟩)
      defaultControls cam0
    = keyDelta (pressOne .arrowUp) defaultControls cam0 :=
  (pan_exclusivity (pressOne .arrowUp) pressNone
    (some ⟨1000, 800, some ⟨1, 400⟩⟩) defaultControls cam0).1
    (by
      intro h
      have h2 := congrArg Quaternion.imK h
      simp [keyDelta, pressOne, defaultControls, cam0, Transform.forward,
        Transform.back, Transform.left, Transform.right, rotateVec,
        vecZ, vecX] at h2)

/-- C6: with edge_pan_width set to zero, the edge-pan delta is the zero
vector for every cursor position inside the window, so the pan
accumulator is the keyboard delta alone. -/
theorem edge_pan_width_zero (keys : KeyCode → Bool)
    (btns : MouseButton → Bool) (ctrl : RtsCameraControls)
    (cam : RtsCamera) (w h x y : ℝ) (hepw : ctrl.edge_pan_width = 0)
    (hx0 : 0 ≤ x) (hxw : x ≤ w) (hy0 : 0 ≤ y) (hyh : y ≤ h) :
    edgeDelta ⟨w, h, some ⟨x, y⟩⟩ ctrl cam = 0
    ∧ panAccum keys btns (some ⟨w, h, some ⟨x, y⟩⟩) ctrl cam
        = keyDelta keys ctrl cam := by
  have he : edgeDelta ⟨w, h, some ⟨x, y⟩⟩ ctrl cam = 0 := by
    simp [edgeDelta, hepw, hx0.not_lt, hy0.not_lt, not_lt.2 hxw, not_lt.2 hyh]
  refine ⟨he, ?_⟩
  simp [panAccum, he]

/-- Witness for C6: a cursor well inside the former left band moves
nothing once edge_pan_width is zero. -/
theorem edge_pan_width_zero_witness :
    edgeDelta ⟨1000, 800, some ⟨1, 400⟩⟩ controlsNoEdge cam0 = 0
    ∧ panAccum pressNone pressNone (some ⟨1000, 800, some ⟨1, 400⟩⟩)
        controlsNoEdge cam0
      = keyDelta pressNone controlsNoEdge cam0 :=
  edge_pan_width_zero pressNone pressNone controlsNoEdge cam0
    1000 800 1 400 rfl (by norm_num) (by norm_num) (by norm_num) (by norm_num)

/-- C7: with no primary window, the pan accumulator degrades to the
keyboard delta (keyboard panning still translates as usual) and the
rotate updater leaves the camera unchanged; both updaters stay total,
surfacing no error. -/
theorem no_window_degrade (keys : KeyCode → Bool) (btns : MouseButton → Bool)
    (mevents : List MouseMotion) (dt : ℝ) (ctrl : RtsCameraControls)
    (cam : RtsCamera) (hen : ctrl.enabled = true) :
    panAccum keys btns none ctrl cam = keyDelta keys ctrl cam
    ∧ (pan keys btns none dt ctrl cam).target_focus.translation
        = cam.target_focus.translation
          + (dt * ctrl.pan_speed * remap cam.target_zoom 0 1 1 0.5)
            • normalize_or_zero (keyDelta keys ctrl cam)
    ∧ rotate btns mevents none ctrl cam = cam := by
  have hacc : panAccum keys btns none ctrl cam = keyDelta keys ctrl cam := by
    simp [panAccum]
  refine ⟨hacc, ?_, ?_⟩
  · simp [pan, hen, hacc]
  · simp [rotate, hen]

/-- Witness for C7: up key held, rotate button held, motion events
present, but no window. -/
theorem no_window_degrade_witness :
    panAccum (pressOne .arrowUp) pressAll none defaultControls cam0
      = keyDelta (pressOne .arrowUp) defaultControls cam0
    ∧ (pan (pressOne .arrowUp) pressAll none 0.016 defaultControls
        cam0).target_focus.translation
      = cam0.target_focus.translation
        + (0.016 * defaultControls.pan_speed
            * remap cam0.target_zoom 0 1 1 0.5)
          • normalize_or_zero (keyDelta (pressOne .arrowUp) defaultControls cam0)
    ∧ rotate pressAll [⟨⟨30, 0⟩⟩] none defaultControls cam0 = cam0 :=
  no_window_degrade (pressOne .arrowUp) pressAll [⟨⟨30, 0⟩⟩] 0.016
    defaultControls cam0 rfl

/-- C10: edge-band membership is strict: a cursor exactly on the left,
right, top, or bottom band boundary contributes nothing for that edge
(here stated with the other coordinates outside their bands, so the
whole delta is zero), while a cursor strictly inside the left band adds
the left direction. -/
theorem edge_band_strict (ctrl : RtsCameraControls) (cam : RtsCamera)
    (w h x y : ℝ) :
    (x = h * ctrl.edge_pan_width → x ≤ w - h * ctrl.edge_pan_width →
      h * ctrl.edge_pan_width ≤ y → y ≤ h - h * ctrl.edge_pan_width →
      edgeDelta ⟨w, h, some ⟨x, y⟩⟩ ctrl cam = 0)
    ∧ (x = w - h * ctrl.edge_pan_width → h * ctrl.edge_pan_width ≤ x →
      h * ctrl.edge_pan_width ≤ y → y ≤ h - h * ctrl.edge_pan_width →
      edgeDelta ⟨w, h, some ⟨x, y⟩⟩ ctrl cam = 0)
    ∧ (y = h * ctrl.edge_pan_width → h * ctrl.edge_pan_width ≤ x →
      x ≤ w - h * ctrl.edge_pan_width → y ≤ h - h * ctrl.edge_pan_width →
      edgeDelta ⟨w, h, some ⟨x, y⟩⟩ ctrl cam = 0)
    ∧ (y = h - h * ctrl.edge_pan_width → h * ctrl.edge_pan_width ≤ x →
      x ≤ w - h * ctrl.edge_pan_width → h * ctrl.edge_pan_width ≤ y →
      edgeDelta ⟨w, h, some ⟨x, y⟩⟩ ctrl cam = 0)
    ∧ (x < h * ctrl.edge_pan_width → ¬ x > w - h * ctrl.edge_pan_width →
      ¬ y < h * ctrl.edge_pan_width → ¬ y > h - h * ctrl.edge_pan_width →
      edgeDelta ⟨w, h, some ⟨x, y⟩⟩ ctrl cam = cam.target_focus.left) := by
  refine ⟨?_, ?_, ?_, ?_, ?_⟩
  · intro h1 h2 h3 h4
    have c1 : ¬ x < h * ctrl.edge_pan_width := by rw [h1]; exact lt_irrefl _
    simp [edgeDelta, c1, not_lt.2 h2, not_lt.2 h3, not_lt.2 h4]
  · intro h1 h2 h3 h4
    have c2 : ¬ x > w - h * ctrl.edge_pan_width := by
      rw [h1]; exact lt_irrefl _
    simp [edgeDelta, c2, not_lt.2 h2, not_lt.2 h3, not_lt.2 h4]
  · intro h1 h2 h3 h4
    have c3 : ¬ y < h * ctrl.edge_pan_width := by rw [h1]; exact lt_irrefl _
    simp [edgeDelta, c3, not_lt.2 h2, not_lt.2 h3, not_lt.2 h4]
  · intro h1 h2 h3 h4
    have c4 : ¬ y > h - h * ctrl.edge_pan_width := by
      rw [h1]; exact lt_irrefl _
    simp [edgeDelta, c4, not_lt.2 h2, not_lt.2 h3, not_lt.2 h4]
  · intro h1 h2 h3 h4
    simp [edgeDelta, h1, h2, h3, h4]

/-- Witness for C10: with the default five-percent band in a 1000 by
800 window the band is 40 pixels; a cursor exactly at x equal to 40
pans nothing, and one at x equal to 39 pans left. -/
theorem edge_band_strict_witness :
    edgeDelta ⟨1000, 800, some ⟨40, 400⟩⟩ defaultControls cam0 = 0
    ∧ edgeDelta ⟨1000, 800, some ⟨39, 400⟩⟩ defaultControls cam0
      = cam0.target_focus.left := by
  constructor
  · exact (edge_band_strict defaultControls cam0 1000 800 40 400).1
      (by norm_num [defaultControls]) (by norm_num [defaultControls])
      (by norm_num [defaultControls]) (by norm_num [defaultControls])
  · exact (edge_band_strict defaultControls cam0 1000 800 39 400).2.2.2.2
      (by norm_num [defaultControls]) (by norm_num [defaultControls])
      (by norm_num [defaultControls]) (by norm_num [defaultControls])

end Bevy

namespace Bevy

/-- C5: while enabled and with the rotate button held and a primary
window present, the rotate updater composes onto the existing
orientation a local y rotation through minus the summed horizontal
motion delta divided by the window width times pi; halving the window
width doubles the applied yaw angle, and a delta equal to the full
window width yields a yaw angle of exactly minus pi. -/
theorem rotate_yaw (btns : MouseButton → Bool) (mevents : List MouseMotion)
    (win : Window) (ctrl : RtsCameraControls) (cam : RtsCamera)
    (hen : ctrl.enabled = true) (hbtn : btns ctrl.button_rotate = true)
    (hw : win.width ≠ 0) :
    (rotate btns mevents (some win) ctrl cam).target_focus.rotation
      = cam.target_focus.rotation
        * from_rotation_y (-((sumMotion mevents).x / win.width * Real.pi))
    ∧ (rotate btns mevents
        (some ⟨win.width / 2, win.height, win.cursor_position⟩) ctrl
        cam).target_focus.rotation
      = cam.target_focus.rotation
        * from_rotation_y
            (2 * (-((sumMotion mevents).x / win.width * Real.pi)))
    ∧ ((sumMotion mevents).x = win.width →
        -((sumMotion mevents).x / win.width * Real.pi) = -Real.pi) := by
  refine ⟨?_, ?_, ?_⟩
  · simp [rotate, hen, hbtn, Transform.rotate_local_y]
  · have hang : -((sumMotion mevents).x / (win.width / 2) * Real.pi)
        = 2 * (-((sumMotion mevents).x / win.width * Real.pi)) := by
      rw [div_div_eq_mul_div]
      ring
    simp [rotate, hen, hbtn, Transform.rotate_local_y, hang]
  · intro h
    rw [h]
    field_simp

/-- Witness for C5: a 250 pixel drag in a 1000 pixel wide window. -/
theorem rotate_yaw_witness :
    (rotate pressAll [⟨⟨250, 0⟩⟩] (some ⟨1000, 800, none⟩) defaultControls
        cam0).target_focus.rotation
      = cam0.target_focus.rotation
        * from_rotation_y
            (-((sumMotion [⟨⟨250, 0⟩⟩]).x / (1000 : ℝ) * Real.pi))
    ∧ (rotate pressAll [⟨⟨250, 0⟩⟩]
        (some ⟨(1000 : ℝ) / 2, 800, none⟩) defaultControls
        cam0).target_focus.rotation
      = cam0.target_focus.rotation
        * from_rotation_y
            (2 * (-((sumMotion [⟨⟨250, 0⟩⟩]).x / (1000 : ℝ) * Real.pi)))
    ∧ ((sumMotion [⟨⟨250, 0⟩⟩]).x = (1000 : ℝ) →
        -((sumMotion [⟨⟨250, 0⟩⟩]).x / (1000 : ℝ) * Real.pi) = -Real.pi) :=
  rotate_yaw pressAll [⟨⟨250, 0⟩⟩] ⟨1000, 800, none⟩ defaultControls cam0
    rfl rfl (by norm_num)

end Bevy

namespace Bevy

/-- C4: for an enabled entity the pan updater adds to the focus
translation exactly the normalized accumulator (zero when the
accumulator is zero, never dividing by zero) scaled by the frame time,
pan_speed, and the linear zoom multiplier, which maps 0 to 1, 0.5 to
0.75 and 1 to 0.5; and with distinct key bindings and a unit rotation,
holding up and right together translates with the same magnitude as
holding up alone. -/
theorem pan_translation (keys : KeyCode → Bool) (btns : MouseButton → Bool)
    (win : Option Window) (dt : ℝ) (ctrl : RtsCameraControls)
    (cam : RtsCamera) (hen : ctrl.enabled = true) :
    (pan keys btns win dt ctrl cam).target_focus.translation
      = cam.target_focus.translation
        + (dt * ctrl.pan_speed * remap cam.target_zoom 0 1 1 0.5)
          • normalize_or_zero (panAccum keys btns win ctrl cam)
    ∧ remap (0 : ℝ) 0 1 1 0.5 = 1
    ∧ remap (0.5 : ℝ) 0 1 1 0.5 = 0.75
    ∧ remap (1 : ℝ) 0 1 1 0.5 = 0.5
    ∧ normalize_or_zero (0 : Vec3) = 0
    ∧ (‖cam.target_focus.rotation‖ = 1 →
      ctrl.key_up ≠ ctrl.key_down → ctrl.key_up ≠ ctrl.key_left →
      ctrl.key_up ≠ ctrl.key_right → ctrl.key_right ≠ ctrl.key_down →
      ctrl.key_right ≠ ctrl.key_left →
      ‖(pan (pressTwo ctrl.key_up ctrl.key_right) btns win dt ctrl
          cam).target_focus.translation - cam.target_focus.translation‖
      = ‖(pan (pressOne ctrl.key_up) btns win dt ctrl
          cam).target_focus.translation - cam.target_focus.translation‖) := by
  refine ⟨?_, ?_, ?_, ?_, ?_, ?_⟩
  · simp [pan, hen]
  · norm_num [remap]
  · norm_num [remap]
  · norm_num [remap]
  · simp [normalize_or_zero]
  · intro hq hud hul hur hrd hrl
    have hq0 : cam.target_focus.rotation ≠ 0 :=
      norm_ne_zero_iff.1 (by rw [hq]; exact one_ne_zero)
    have e2 : keyDelta (pressTwo ctrl.key_up ctrl.key_right) ctrl cam
        = cam.target_focus.forward + cam.target_focus.right := by
      simp [keyDelta, pressTwo, Ne.symm hud, Ne.symm hrd, Ne.symm hul,
        Ne.symm hrl]
    have h2k : keyDelta (pressTwo ctrl.key_up ctrl.key_right) ctrl cam
        = rotateVec cam.target_focus.rotation (-vecZ + vecX) := by
      rw [e2]
      simp [Transform.forward, Transform.right, rotateVec_add]
    have h1k : keyDelta (pressOne ctrl.key_up) ctrl cam
        = rotateVec cam.target_focus.rotation (-vecZ) := by
      simp [keyDelta, pressOne, Ne.symm hud, Ne.symm hul, Ne.symm hur,
        Transform.forward]
    have hne2 : keyDelta (pressTwo ctrl.key_up ctrl.key_right) ctrl cam ≠ 0 := by
      rw [h2k]
      intro h
      rw [rotateVec_eq_zero_iff _ _ hq0] at h
      have h2 := congrArg Quaternion.imI h
      simp [vecX, vecZ] at h2
    have hne1 : keyDelta (pressOne ctrl.key_up) ctrl cam ≠ 0 := by
      rw [h1k]
      intro h
      rw [rotateVec_eq_zero_iff _ _ hq0] at h
      have h2 := congrArg Quaternion.imK h
      simp [vecZ] at h2
    have hacc2 : panAccum (pressTwo ctrl.key_up ctrl.key_right) btns win ctrl cam
        = keyDelta (pressTwo ctrl.key_up ctrl.key_right) ctrl cam :=
      panAccum_eq_keyDelta _ _ _ _ _ (fun h0 => hne2
        ((length_squared_eq_zero_iff
          (isVec_keyDelta (pressTwo ctrl.key_up ctrl.key_right) ctrl cam)).1 h0))
    have hacc1 : panAccum (pressOne ctrl.key_up) btns win ctrl cam
        = keyDelta (pressOne ctrl.key_up) ctrl cam :=
      panAccum_eq_keyDelta _ _ _ _ _ (fun h0 => hne1
        ((length_squared_eq_zero_iff
          (isVec_keyDelta (pressOne ctrl.key_up) ctrl cam)).1 h0))
    have ht2 : (pan (pressTwo ctrl.key_up ctrl.key_right) btns win dt ctrl
          cam).target_focus.translation
        = cam.target_focus.translation
          + (dt * ctrl.pan_speed * remap cam.target_zoom 0 1 1 0.5)
            • normalize_or_zero
              (keyDelta (pressTwo ctrl.key_up ctrl.key_right) ctrl cam) := by
      simp [pan, hen, hacc2]
    have ht1 : (pan (pressOne ctrl.key_up) btns win dt ctrl
          cam).target_focus.translation
        = cam.target_focus.translation
          + (dt * ctrl.pan_speed * remap cam.target_zoom 0 1 1 0.5)
            • normalize_or_zero (keyDelta (pressOne ctrl.key_up) ctrl cam) := by
      simp [pan, hen, hacc1]
    rw [ht2, ht1, add_sub_cancel_left, add_sub_cancel_left, norm_smul,
      norm_smul, norm_normalize_or_zero hne2, norm_normalize_or_zero hne1]

/-- Witness for C4: at the default bindings and a unit rotation, the
diagonal up-plus-right translation has the magnitude of the single-key
translation. -/
theorem pan_translation_witness :
    ‖(pan (pressTwo defaultControls.key_up defaultControls.key_right)
        pressNone none 0.016 defaultControls cam0).target_focus.translation
      - cam0.target_focus.translation‖
    = ‖(pan (pressOne defaultControls.key_up) pressNone none 0.016
        defaultControls cam0).target_focus.translation
      - cam0.target_focus.translation‖ :=
  (pan_translation pressNone pressNone none 0.016 defaultControls cam0
    rfl).2.2.2.2.2 (by simp [cam0]) (by simp [defaultControls])
    (by simp [defaultControls]) (by simp [defaultControls])
    (by simp [defaultControls]) (by simp [defaultControls])

end Bevy
